import Mathlib

/-!
Verification of the culprit-finder bisection engine
(`src/culprit_finder/src/culprit_finder/culprit_finder.py` and
`culprit_finder_state.py`).

The Python code is shallowly embedded:

* Python strings that are only compared for equality stay `String`; strings
  that are manipulated character-wise (the path-component sanitizer, the
  job-name normalizer) are modelled as `List Char`, with `py_strip`,
  `py_replace` and `split1_last` mirroring `str.strip`, `str.replace`
  (left-to-right, non-overlapping) and `str.split(sep, 1)[-1]`.
* The mutable `CulpritFinderState` TypedDict becomes an immutable structure
  threaded through the loop; the Python `dict` cache becomes an association
  list where prepending a key shadows older entries (Python assignment
  overwrite semantics).
* Remote effects are abstracted into a `Provider` record: `existing_run sha`
  is the verdict `_check_existing_run` would produce (`none` = no completed
  run) and `fresh_test sha` is the verdict `_execute_test_with_branch`
  would produce.  Each loop iteration is recorded in a ghost `StepLog`
  (pre/post state, resolution source, list of states passed to
  `StatePersister.save`); the log does not influence the computed result.
* The `while` loop of `run_bisection` and the bounded-scan of `py_replace`
  are written with an explicit fuel argument so that they are structural
  (and hence kernel-computable); `run_bisection` supplies fuel
  `commits.length`, and `bisect_loop_interval_le_one` proves that this fuel
  is never exhausted, i.e. the loop genuinely terminates by reaching
  `bad_idx - good_idx <= 1` exactly as the Python loop does.
* Exceptions (`ValueError`, the timeout paths) of `_test_commit` are
  modelled by the `TestResult.fatal` constructor, kept distinct from the
  boolean verdict constructor `TestResult.verdict`.
-/

/-! ## Python string primitives on `List Char` -/

/-- Characters stripped by Python `str.strip()` (ASCII whitespace). -/
def py_isspace (c : Char) : Bool :=
  c = ' ' || c = '\t' || c = '\n' || c = '\r' || c = '\x0b' || c = '\x0c'

/-- Model of Python `str.strip()`. -/
def py_strip (s : List Char) : List Char :=
  ((s.dropWhile py_isspace).reverse.dropWhile py_isspace).reverse

/-- Fuelled worker for `py_replace`; fuel bounds the scan length, and
`py_replace` always supplies enough fuel (`s.length`). -/
def py_replace_fuel (pat repl : List Char) : Nat → List Char → List Char
  | 0, s => s
  | fuel + 1, s =>
    match s with
    | [] => []
    | c :: rest =>
      if pat.isPrefixOf (c :: rest) && !pat.isEmpty then
        repl ++ py_replace_fuel pat repl fuel ((c :: rest).drop pat.length)
      else
        c :: py_replace_fuel pat repl fuel rest

/-- Model of Python `str.replace(pat, repl)`: left-to-right, non-overlapping
replacement of every occurrence (callers use non-empty patterns). -/
def py_replace (pat repl s : List Char) : List Char :=
  py_replace_fuel pat repl s.length s

/-- Everything after the first `sep`, if `sep` occurs. -/
def drop_through_first (sep : Char) : List Char → Option (List Char)
  | [] => none
  | c :: rest => if c = sep then some rest else drop_through_first sep rest

/-- Model of Python `s.split(sep, 1)[-1]`: the part after the first `sep`,
or the whole string when `sep` does not occur. -/
def split1_last (sep : Char) (s : List Char) : List Char :=
  (drop_through_first sep s).getD s

/-- Does `pat` occur as a contiguous subsequence of `s`? -/
def contains_seq (pat : List Char) : List Char → Bool
  | [] => pat.isEmpty
  | c :: rest => pat.isPrefixOf (c :: rest) || contains_seq pat rest

/-! ## State store (`culprit_finder_state.py`) -/

/-- Cache verdict literal (`COMMIT_STATUS = Literal["PASS", "FAIL"]`). -/
inductive CommitStatus where
  | PASS
  | FAIL
  deriving DecidableEq, Repr

/-- The `CulpritFinderState` TypedDict.  The cache is an association list;
`cacheLookup` finds the most recently inserted binding, matching Python
dict assignment/lookup. -/
structure CulpritFinderState where
  repo : String
  workflow : String
  job : Option String
  original_start : String
  original_end : String
  current_good : String
  current_bad : String
  cache : List (String × CommitStatus)
  deriving DecidableEq, Repr

/-- Lookup in the modelled cache dictionary. -/
def cacheLookup : List (String × CommitStatus) → String → Option CommitStatus
  | [], _ => none
  | (k, v) :: rest, sha => if k == sha then some v else cacheLookup rest sha

/-- The `_sanitize_component` chain of `culprit_finder_state.py`:
`value.strip().replace("..", ".").replace("\\", "_").replace("/", "_")
.replace(" ", "_").replace(":", "_").replace("|", "_")`. -/
def sanitize_component (value : List Char) : List Char :=
  py_replace ['|'] ['_'] <|
    py_replace [':'] ['_'] <|
      py_replace [' '] ['_'] <|
        py_replace ['/'] ['_'] <|
          py_replace ['\\'] ['_'] <|
            py_replace ['.', '.'] ['.'] <|
              py_strip value

/-! ## Commit tester (`CulpritFinder._test_commit` and helpers) -/

/-- A job of a workflow run (PyGithub `WorkflowJob`: the fields the code
reads). -/
structure WorkflowJob where
  name : String
  conclusion : String
  deriving DecidableEq, Repr

/-- The inner `get_job_name` of `_get_target_job`: when the workflow was
invoked from another workflow the job name is `"Caller / Called"`, so take
`name.split("/", 1)[-1].strip()`; otherwise the name is unchanged. -/
def get_job_name (invoked_from_another_workflow : Bool) (name : String) : String :=
  if invoked_from_another_workflow then
    String.mk (py_strip (split1_last '/' name.data))
  else
    name

/-- The `_get_target_job` search: first job whose (normalized) name equals
the requested job name; `none` models the `ValueError` raised when no job
matches. -/
def get_target_job (job : String) (jobs : List WorkflowJob)
    (invoked_from_another_workflow : Bool) : Option WorkflowJob :=
  jobs.find? (fun j => get_job_name invoked_from_another_workflow j.name == job)

/-- A completed workflow run, as `_wait_for_workflow_completion` returns it
(conclusion plus the jobs that `get_run_jobs` would list for it). -/
structure RunResult where
  conclusion : String
  jobs : List WorkflowJob
  deriving DecidableEq, Repr

/-- Result of `_test_commit`: a boolean verdict or a raised error, each
carrying the number of workflow dispatches issued. -/
inductive TestResult where
  | verdict (is_good : Bool) (dispatches : Nat)
  | fatal (message : String) (dispatches : Nat)
  deriving DecidableEq, Repr

/-- Number of dispatch attempts recorded in a `TestResult`. -/
def TestResult.dispatchCount : TestResult → Nat
  | .verdict _ n => n
  | .fatal _ n => n

/-- The `ValueError` message raised when the culprit-finder wrapper workflow
was skipped. -/
def skipped_error (workflow_file : String) : String :=
  "Bisection stopped: The culprit finder workflow was skipped while testing " ++ workflow_file

/-- The `ValueError` message raised by `_get_target_job` when the job is
absent. -/
def job_not_found_error (job workflow_file : String) : String :=
  "Job " ++ job ++ " not found in workflow " ++ workflow_file

/-- The job-scoped part of one `_test_commit` attempt (lines 266-270): when
a job name was requested, fetch the run's jobs and look the job up; a
missing job raises (`fatal`), a successful job conclusion returns GOOD;
otherwise (`none`) the attempt falls through to the retry logic. -/
def job_scoped_check (has_culprit_finder_workflow : Bool) (workflow_file : String)
    (job : Option String) (run : RunResult) (attempt : Nat) : Option TestResult :=
  match job with
  | none => none
  | some j =>
    match get_target_job j run.jobs has_culprit_finder_workflow with
    | none => some (.fatal (job_not_found_error j workflow_file) (attempt + 1))
    | some tj =>
      if tj.conclusion == "success" then some (.verdict true (attempt + 1)) else none

/-- The `for attempt in range(self._retries + 1)` loop of `_test_commit`.
`runs t` is the completed run observed by attempt `t` (trigger + wait),
`attempt` is the index of the current attempt, and the `Nat` argument is
the number of attempts still allowed.  With zero attempts remaining the
Python loop body never ran, `run` is `None`, and the function returns
`False` (`if not run: return False`); on the last attempt the trailing
`return run.conclusion == "success"` applies. -/
def test_commit_attempts (has_culprit_finder_workflow : Bool) (workflow_file : String)
    (job : Option String) (runs : Nat → RunResult) (attempt : Nat) :
    Nat → TestResult
  | 0 => .verdict false attempt
  | fuel + 1 =>
    let run := runs attempt
    if run.conclusion == "success" then
      .verdict true (attempt + 1)
    else if run.conclusion == "skipped" && has_culprit_finder_workflow then
      .fatal (skipped_error workflow_file) (attempt + 1)
    else
      (job_scoped_check has_culprit_finder_workflow workflow_file job run attempt).getD
        (if fuel = 0 then
          .verdict (run.conclusion == "success") (attempt + 1)
        else
          test_commit_attempts has_culprit_finder_workflow workflow_file job runs
            (attempt + 1) fuel)

/-- The `_test_commit` entry point: up to `retries + 1` attempts starting at
attempt 0. -/
def test_commit (has_culprit_finder_workflow : Bool) (workflow_file : String)
    (job : Option String) (runs : Nat → RunResult) (retries : Nat) : TestResult :=
  test_commit_attempts has_culprit_finder_workflow workflow_file job runs 0 (retries + 1)

/-- Does an attempt observing run `r` fall through to the next retry
(neither a success verdict, nor a fatal error, nor a job-scoped success)? -/
def attempt_continues (has_culprit_finder_workflow : Bool) (job : Option String)
    (r : RunResult) : Bool :=
  !(r.conclusion == "success") &&
    !(r.conclusion == "skipped" && has_culprit_finder_workflow) &&
      (match job with
       | none => true
       | some j =>
         match get_target_job j r.jobs has_culprit_finder_workflow with
         | none => false
         | some tj => !(tj.conclusion == "success"))

/-! ## Bisection engine (`CulpritFinder.run_bisection`) -/

/-- A commit, identified by its sha. -/
structure Commit where
  sha : String
  deriving DecidableEq, Repr

/-- Default commit used to model Python's unchecked list indexing
(`commits[i]`); all theorems index within bounds. -/
def dummyCommit : Commit := ⟨""⟩

/-- The remote side as `run_bisection` observes it: `existing_run sha` is
the verdict `_check_existing_run(sha)` would return (`none` when no
completed run exists) and `fresh_test sha` is the verdict
`_execute_test_with_branch(sha)` would return. -/
structure Provider where
  existing_run : String → Option Bool
  fresh_test : String → Bool

/-- Which of the three resolution paths produced a midpoint verdict. -/
inductive ResolveSource where
  | cacheHit
  | existingRun
  | freshTest
  deriving DecidableEq, Repr

/-- Outcome of resolving one midpoint (the `is_good` / `is_cached` pair of
the loop body, plus the path taken). -/
structure Resolution where
  is_good : Bool
  is_cached : Bool
  source : ResolveSource
  deriving DecidableEq, Repr

/-- Lines 379-391 of `run_bisection`: try the state cache, then (only if
`use_cache`) a pre-existing completed run, then a fresh test via
`_execute_test_with_branch`. -/
def resolve_verdict (use_cache : Bool) (p : Provider) (st : CulpritFinderState)
    (commit_sha : String) : Resolution :=
  match cacheLookup st.cache commit_sha with
  | some status => ⟨status == CommitStatus.PASS, true, ResolveSource.cacheHit⟩
  | none =>
    if use_cache then
      match p.existing_run commit_sha with
      | some v => ⟨v, false, ResolveSource.existingRun⟩
      | none => ⟨p.fresh_test commit_sha, false, ResolveSource.freshTest⟩
    else
      ⟨p.fresh_test commit_sha, false, ResolveSource.freshTest⟩

/-- The `_update_state` method: record the verdict in `current_good` /
`current_bad` and the cache, then call `StatePersister.save` once.  The
second component lists the states passed to `save`. -/
def update_state (st : CulpritFinderState) (commit_sha : String) (is_good : Bool) :
    CulpritFinderState × List CulpritFinderState :=
  let st2 :=
    if is_good then
      { st with current_good := commit_sha,
                cache := (commit_sha, CommitStatus.PASS) :: st.cache }
    else
      { st with current_bad := commit_sha,
                cache := (commit_sha, CommitStatus.FAIL) :: st.cache }
  (st2, [st2])

/-- Ghost record of one loop iteration: state before, midpoint sha, the
resolution, state after, and the states passed to `StatePersister.save`
during the iteration. -/
structure StepLog where
  pre : CulpritFinderState
  sha : String
  is_good : Bool
  is_cached : Bool
  source : ResolveSource
  post : CulpritFinderState
  saves : List CulpritFinderState
  deriving DecidableEq, Repr

/-- The `while bad_idx - good_idx > 1` loop of `run_bisection`, with an
explicit fuel bound (see the file header; `run_bisection` supplies fuel
`commits.length`, which `bisect_loop_interval_le_one` proves sufficient).
Returns final state, final `good_idx`, final `bad_idx`, and the iteration
log. -/
def bisect_loop (use_cache : Bool) (p : Provider) (commits : List Commit) :
    Nat → CulpritFinderState → Int → Int →
      CulpritFinderState × Int × Int × List StepLog
  | 0, st, good_idx, bad_idx => (st, good_idx, bad_idx, [])
  | fuel + 1, st, good_idx, bad_idx =>
    if bad_idx - good_idx > 1 then
      let mid_idx : Int := Int.fdiv (good_idx + bad_idx) 2
      let commit_sha := (commits.getD mid_idx.toNat dummyCommit).sha
      let r := resolve_verdict use_cache p st commit_sha
      let upd :=
        if r.is_cached then (st, ([] : List CulpritFinderState))
        else update_state st commit_sha r.is_good
      let good2 := if r.is_good then mid_idx else good_idx
      let bad2 := if r.is_good then bad_idx else mid_idx
      let entry : StepLog := ⟨st, commit_sha, r.is_good, r.is_cached, r.source, upd.1, upd.2⟩
      let rest := bisect_loop use_cache p commits fuel upd.1 good2 bad2
      (rest.1, rest.2.1, rest.2.2.1, entry :: rest.2.2.2)
    else
      (st, good_idx, bad_idx, [])

/-- The `run_bisection` method over an already-fetched commit list
(`compare_commits(start, end)`): empty list returns `None` immediately;
otherwise run the loop from `good_idx = -1`, `bad_idx = len(commits)` and
return `None` when `bad_idx == len(commits)`, else `commits[bad_idx]`.
Also returns the ghost iteration log. -/
def run_bisection (use_cache : Bool) (p : Provider) (commits : List Commit)
    (st : CulpritFinderState) : Option Commit × List StepLog :=
  if commits.isEmpty then
    (none, [])
  else
    let r := bisect_loop use_cache p commits commits.length st (-1) (commits.length : Int)
    let culprit :=
      if r.2.2.1 = (commits.length : Int) then none
      else some (commits.getD r.2.2.1.toNat dummyCommit)
    (culprit, r.2.2.2)

/-- Pure resolution outcome of a sha against the initial cache and the
provider: the verdict the priority chain cache / existing run / fresh test
yields the first time the sha is examined. -/
def verdict (use_cache : Bool) (p : Provider)
    (init_cache : List (String × CommitStatus)) (commit_sha : String) : Bool :=
  match cacheLookup init_cache commit_sha with
  | some status => status == CommitStatus.PASS
  | none =>
    if use_cache then (p.existing_run commit_sha).getD (p.fresh_test commit_sha)
    else p.fresh_test commit_sha

/-! ## Sanitizer lemmas (claim C5) -/

/-- Every character of a replacement result comes from the replacement
string or from the input. -/
theorem mem_py_replace_fuel {c : Char} (pat repl : List Char) :
    ∀ (fuel : Nat) (s : List Char), c ∈ py_replace_fuel pat repl fuel s →
      c ∈ repl ∨ c ∈ s := by
  intro fuel
  induction fuel with
  | zero => intro s h; exact Or.inr h
  | succ fuel ih =>
    intro s h
    cases s with
    | nil => simp [py_replace_fuel] at h
    | cons a rest =>
      rw [py_replace_fuel] at h
      split at h
      · rcases List.mem_append.mp h with h1 | h2
        · exact Or.inl h1
        · rcases ih _ h2 with h3 | h4
          · exact Or.inl h3
          · exact Or.inr (List.drop_subset _ _ h4)
      · rcases List.mem_cons.mp h with h1 | h2
        · exact Or.inr (h1 ▸ List.mem_cons_self _ _)
        · rcases ih _ h2 with h3 | h4
          · exact Or.inl h3
          · exact Or.inr (List.mem_cons_of_mem _ h4)

theorem mem_py_replace {c : Char} (pat repl s : List Char)
    (h : c ∈ py_replace pat repl s) : c ∈ repl ∨ c ∈ s :=
  mem_py_replace_fuel pat repl s.length s h

/-- Replacing a single character removes it entirely (when it does not occur
in the replacement string and the scan has enough fuel). -/
theorem py_replace_fuel_single_removes (p : Char) (repl : List Char)
    (hp : p ∉ repl) :
    ∀ (fuel : Nat) (s : List Char), s.length ≤ fuel →
      p ∉ py_replace_fuel [p] repl fuel s := by
  intro fuel
  induction fuel with
  | zero =>
    intro s hlen
    have : s = [] := List.eq_nil_of_length_eq_zero (Nat.le_zero.mp hlen)
    subst this
    simp [py_replace_fuel]
  | succ fuel ih =>
    intro s hlen
    cases s with
    | nil => simp [py_replace_fuel]
    | cons a rest =>
      have hlen2 : rest.length ≤ fuel := by simpa using hlen
      rw [py_replace_fuel]
      split
      · intro hmem
        rcases List.mem_append.mp hmem with h1 | h2
        · exact hp h1
        · exact ih rest hlen2 (by simpa using h2)
      · intro hmem
        rename_i hcond
        rcases List.mem_cons.mp hmem with h1 | h2
        · apply hcond
          subst h1
          simp [List.isPrefixOf]
        · exact ih rest hlen2 h2

theorem py_replace_single_removes (p : Char) (repl s : List Char)
    (hp : p ∉ repl) : p ∉ py_replace [p] repl s :=
  py_replace_fuel_single_removes p repl hp s.length s le_rfl

/-- The sanitizer does remove every path separator: no `/` and no `\`
survives `sanitize_component`, whatever the input. -/
theorem sanitize_component_no_separators (value : List Char) :
    '/' ∉ sanitize_component value ∧ '\\' ∉ sanitize_component value := by
  unfold sanitize_component
  constructor
  · intro hmem
    rcases mem_py_replace _ _ _ hmem with h | h
    · simp at h
    rcases mem_py_replace _ _ _ h with h | h
    · simp at h
    rcases mem_py_replace _ _ _ h with h | h
    · simp at h
    exact py_replace_single_removes '/' ['_'] _ (by simp) h
  · intro hmem
    rcases mem_py_replace _ _ _ hmem with h | h
    · simp at h
    rcases mem_py_replace _ _ _ h with h | h
    · simp at h
    rcases mem_py_replace _ _ _ h with h | h
    · simp at h
    rcases mem_py_replace _ _ _ h with h | h
    · simp at h
    exact py_replace_single_removes '\\' ['_'] _ (by simp) h

/-- Claim C5 (code bug): the sanitizer promises to prevent path traversal,
but a single non-iterated `replace("..", ".")` pass can itself produce
`..`: the input `"..."` sanitizes to exactly `".."`, a pure traversal path
component, while ordinary separator characters are indeed replaced. -/
theorem sanitize_component_dotdot_survives :
    sanitize_component ("...".data) = "..".data ∧
    contains_seq ("..".data) (sanitize_component ("...".data)) = true ∧
    sanitize_component ("a/b\\c:d e|f".data) = "a_b_c_d_e_f".data := by
  refine ⟨by decide, by decide, by decide⟩

/-! ## Commit tester lemmas (claims C6-C9) -/

/-- Claim C7: wrapper-workflow job matching.  With a wrapper in use, a job
name is normalized by dropping everything up to and including the first
`/` and trimming whitespace before the equality test (so
`"Caller / target-job"` matches `"target-job"`); without a wrapper the
match is exact; when no job matches, `_get_target_job` raises
(`none` in the model); and any job found does satisfy the normalized
equality. -/
theorem target_job_matching (jobs : List WorkflowJob) (req : String) (invoked : Bool) :
    get_job_name true "Caller / target-job" = "target-job" ∧
    (∀ name, get_job_name false name = name) ∧
    ((∀ j ∈ jobs, get_job_name invoked j.name ≠ req) →
      get_target_job req jobs invoked = none) ∧
    (∀ tj, get_target_job req jobs invoked = some tj →
      get_job_name invoked tj.name = req) := by
  refine ⟨by decide, fun name => rfl, ?_, ?_⟩
  · intro h
    unfold get_target_job
    rw [List.find?_eq_none]
    intro j hj
    simpa using h j hj
  · intro tj htj
    have := List.find?_some htj
    simpa using this

/-- Witness for `target_job_matching`: a run with no matching job raises
(`none`), and the wrapper-prefixed job `"Caller / target-job"` is found for
the requested name `"target-job"`. -/
theorem target_job_matching_witness :
    get_target_job "x" [⟨"a", "success"⟩] true = none ∧
    get_job_name true "Caller / target-job" = "target-job" :=
  ⟨(target_job_matching [⟨"a", "success"⟩] "x" true).2.2.1 (by decide),
   (target_job_matching [⟨"Caller / target-job", "success"⟩] "target-job" true).2.2.2
     ⟨"Caller / target-job", "success"⟩ (by decide)⟩

/-- Claim C8: when a specific job is requested and the completed run's own
conclusion is a non-success that is not the skipped-with-wrapper fatal
case, a successful conclusion of the requested job makes the attempt
return GOOD immediately (one dispatch). -/
theorem job_conclusion_overrides_run (hw : Bool) (wf j : String)
    (runs : Nat → RunResult) (retries : Nat) (tj : WorkflowJob)
    (h1 : (runs 0).conclusion ≠ "success")
    (h2 : ¬((runs 0).conclusion = "skipped" ∧ hw = true))
    (h3 : get_target_job j (runs 0).jobs hw = some tj)
    (h4 : tj.conclusion = "success") :
    test_commit hw wf (some j) runs retries = TestResult.verdict true 1 := by
  have hc1 : ((runs 0).conclusion == "success") = false := beq_eq_false_iff_ne.mpr h1
  have hc2 : ((runs 0).conclusion == "skipped" && hw) = false := by
    cases hq : (runs 0).conclusion == "skipped" with
    | false => simp
    | true =>
      cases hw with
      | false => simp
      | true => exact absurd ⟨eq_of_beq hq, rfl⟩ h2
  unfold test_commit
  rw [test_commit_attempts]
  simp [hc1, hc2, job_scoped_check, h3, h4]

/-- Witness for `job_conclusion_overrides_run`: run conclusion `failure`,
wrapper job `"Caller / target-job"` concluded `success` ⇒ GOOD after one
dispatch. -/
theorem job_conclusion_overrides_run_witness :
    test_commit true "w" (some "target-job")
        (fun _ => ⟨"failure", [⟨"Caller / target-job", "success"⟩]⟩) 4 =
      TestResult.verdict true 1 :=
  job_conclusion_overrides_run true "w" "target-job"
    (fun _ => ⟨"failure", [⟨"Caller / target-job", "success"⟩]⟩) 4
    ⟨"Caller / target-job", "success"⟩ (by decide) (by decide) (by decide) (by decide)

/-- Claim C9: a completed run whose conclusion is `skipped` while the
culprit-finder wrapper workflow is in use raises the configuration
`ValueError` on the first attempt: one dispatch, no retries, and the
result is never a boolean verdict (in particular not BAD). -/
theorem skipped_with_wrapper_fatal (wf : String) (job : Option String)
    (runs : Nat → RunResult) (retries : Nat)
    (h : (runs 0).conclusion = "skipped") :
    test_commit true wf job runs retries = TestResult.fatal (skipped_error wf) 1 ∧
    (∀ b d, test_commit true wf job runs retries ≠ TestResult.verdict b d) := by
  have hmain : test_commit true wf job runs retries = TestResult.fatal (skipped_error wf) 1 := by
    unfold test_commit
    rw [test_commit_attempts]
    simp [h]
  exact ⟨hmain, by simp [hmain]⟩

/-- Witness for `skipped_with_wrapper_fatal`. -/
theorem skipped_with_wrapper_fatal_witness :
    test_commit true "w" none (fun _ => ⟨"skipped", []⟩) 5 =
      TestResult.fatal (skipped_error "w") 1 :=
  (skipped_with_wrapper_fatal "w" none (fun _ => ⟨"skipped", []⟩) 5 (by decide)).1

/-- Any result produced by the job-scoped check records `attempt + 1`
dispatches. -/
theorem job_scoped_check_dispatch (hw : Bool) (wf : String) (job : Option String)
    (run : RunResult) (attempt : Nat) (r : TestResult)
    (h : job_scoped_check hw wf job run attempt = some r) :
    r.dispatchCount = attempt + 1 := by
  unfold job_scoped_check at h
  split at h
  · exact absurd h (by simp)
  · split at h
    · cases h
      rfl
    · split at h
      · cases h
        rfl
      · exact absurd h (by simp)

/-- The dispatch counter of the attempt loop never exceeds the remaining
attempt budget. -/
theorem test_commit_attempts_dispatch_le (hw : Bool) (wf : String) (job : Option String)
    (runs : Nat → RunResult) :
    ∀ (fuel attempt : Nat),
      (test_commit_attempts hw wf job runs attempt fuel).dispatchCount ≤ attempt + fuel := by
  intro fuel
  induction fuel with
  | zero =>
    intro attempt
    simp [test_commit_attempts, TestResult.dispatchCount]
  | succ fuel ih =>
    intro attempt
    simp only [test_commit_attempts]
    split
    · simp [TestResult.dispatchCount]
    · split
      · simp [TestResult.dispatchCount]
      · cases hchk : job_scoped_check hw wf job (runs attempt) attempt with
        | some r =>
          rw [Option.getD_some]
          rw [job_scoped_check_dispatch hw wf job (runs attempt) attempt r hchk]
          omega
        | none =>
          rw [Option.getD_none]
          split
          · simp [TestResult.dispatchCount]
          · calc (test_commit_attempts hw wf job runs (attempt + 1) fuel).dispatchCount
                ≤ (attempt + 1) + fuel := ih (attempt + 1)
              _ = attempt + (fuel + 1) := by omega

/-- Unpacking `attempt_continues`: the attempt neither succeeded, nor hit
the skipped-with-wrapper error, nor produced a job-scoped result. -/
theorem attempt_continues_parts (hw : Bool) (job : Option String) (r : RunResult)
    (h : attempt_continues hw job r = true) :
    (r.conclusion == "success") = false ∧
    (r.conclusion == "skipped" && hw) = false ∧
    ∀ (wf : String) (attempt : Nat), job_scoped_check hw wf job r attempt = none := by
  cases job with
  | none =>
    unfold attempt_continues at h
    rw [Bool.and_eq_true, Bool.and_eq_true] at h
    obtain ⟨⟨h1, h2⟩, _⟩ := h
    rw [Bool.not_eq_true'] at h1 h2
    exact ⟨h1, h2, fun wf attempt => rfl⟩
  | some j =>
    unfold attempt_continues at h
    rw [Bool.and_eq_true, Bool.and_eq_true] at h
    obtain ⟨⟨h1, h2⟩, h3⟩ := h
    rw [Bool.not_eq_true'] at h1 h2
    refine ⟨h1, h2, fun wf attempt => ?_⟩
    have h4 : (match get_target_job j r.jobs hw with
               | none => false
               | some tj => !(tj.conclusion == "success")) = true := h3
    show (match get_target_job j r.jobs hw with
          | none => some (TestResult.fatal (job_not_found_error j wf) (attempt + 1))
          | some tj =>
            if tj.conclusion == "success" then some (TestResult.verdict true (attempt + 1))
            else none) = none
    cases hgt : get_target_job j r.jobs hw with
    | none =>
      rw [hgt] at h4
      exact absurd h4 (by simp)
    | some tj =>
      rw [hgt] at h4
      have h5 : (!(tj.conclusion == "success")) = true := h4
      rw [Bool.not_eq_true'] at h5
      simp [h5]

/-- If the first `m` attempts all fall through and attempt `m` observes a
successful run conclusion, the loop returns GOOD with exactly
`attempt + m + 1` dispatches. -/
theorem test_commit_attempts_first_success (hw : Bool) (wf : String) (job : Option String)
    (runs : Nat → RunResult) :
    ∀ (m attempt fuel : Nat), m < fuel →
      (∀ t, t < m → attempt_continues hw job (runs (attempt + t)) = true) →
      (runs (attempt + m)).conclusion = "success" →
      test_commit_attempts hw wf job runs attempt fuel =
        TestResult.verdict true (attempt + m + 1) := by
  intro m
  induction m with
  | zero =>
    intro attempt fuel hlt hcont hsucc
    obtain ⟨fuel2, rfl⟩ : ∃ f, fuel = f + 1 := ⟨fuel - 1, by omega⟩
    rw [Nat.add_zero] at hsucc
    simp [test_commit_attempts, hsucc]
  | succ m ih =>
    intro attempt fuel hlt hcont hsucc
    obtain ⟨fuel2, rfl⟩ : ∃ f, fuel = f + 1 := ⟨fuel - 1, by omega⟩
    have hcc : attempt_continues hw job (runs attempt) = true := by
      have := hcont 0 (by omega)
      simpa using this
    obtain ⟨h1, h2, h3⟩ := attempt_continues_parts hw job (runs attempt) hcc
    have hrec := ih (attempt + 1) fuel2 (by omega)
      (fun t ht => by
        have := hcont (t + 1) (by omega)
        rwa [show attempt + (t + 1) = attempt + 1 + t by omega] at this)
      (by rwa [show attempt + 1 + m = attempt + (m + 1) by omega])
    have he : attempt + 1 + m + 1 = attempt + (m + 1) + 1 := by omega
    rw [he] at hrec
    simp only [test_commit_attempts, h1, h2, h3 wf attempt, Option.getD_none]
    rw [if_neg (by simp), if_neg (by simp), if_neg (by omega)]
    exact hrec

/-- Claim C6: with retry budget `retries`, `_test_commit` issues at most
`retries + 1` dispatches; the first attempt whose run conclusion is
`success` (all earlier attempts having fallen through) short-circuits the
loop with GOOD after exactly `m + 1` dispatches; and in particular with
`retries = 2` and run conclusions failure, failure, success exactly 3
dispatches happen and the result is GOOD. -/
theorem retry_budget_and_first_success (hw : Bool) (wf : String) (job : Option String)
    (runs : Nat → RunResult) (retries : Nat) :
    (test_commit hw wf job runs retries).dispatchCount ≤ retries + 1 ∧
    (∀ m, m ≤ retries →
      (∀ t, t < m → attempt_continues hw job (runs t) = true) →
      (runs m).conclusion = "success" →
      test_commit hw wf job runs retries = TestResult.verdict true (m + 1)) ∧
    test_commit false wf none (fun n => if n < 2 then ⟨"failure", []⟩ else ⟨"success", []⟩) 2 =
      TestResult.verdict true 3 := by
  refine ⟨?_, ?_, rfl⟩
  · have := test_commit_attempts_dispatch_le hw wf job runs (retries + 1) 0
    simpa [test_commit] using this
  · intro m hm hcont hsucc
    have := test_commit_attempts_first_success hw wf job runs m 0 (retries + 1)
      (by omega) (fun t ht => by simpa using hcont t ht) (by simpa using hsucc)
    simpa [test_commit] using this

/-- Witness for `retry_budget_and_first_success`: the concrete
failure-failure-success scenario with `retries = 2`. -/
theorem retry_budget_and_first_success_witness :
    test_commit false "w" none
        (fun n => if n < 2 then ⟨"failure", []⟩ else ⟨"success", []⟩) 2 =
      TestResult.verdict true 3 :=
  (retry_budget_and_first_success false "w" none
      (fun n => if n < 2 then ⟨"failure", []⟩ else ⟨"success", []⟩) 2).2.1 2
    (le_refl 2) (by decide) (by decide)

/-! ## Bisection engine lemmas -/

/-- A state-cache hit resolves from the cache with `is_cached = true`. -/
theorem resolve_verdict_of_cached (u : Bool) (p : Provider) (st : CulpritFinderState)
    (sha : String) (status : CommitStatus) (h : cacheLookup st.cache sha = some status) :
    resolve_verdict u p st sha =
      ⟨status == CommitStatus.PASS, true, ResolveSource.cacheHit⟩ := by
  unfold resolve_verdict
  rw [h]

/-- The resolution is a cache hit exactly when `is_cached` was set. -/
theorem resolve_is_cached_iff_source (u : Bool) (p : Provider) (st : CulpritFinderState)
    (sha : String) :
    (resolve_verdict u p st sha).is_cached = true ↔
      (resolve_verdict u p st sha).source = ResolveSource.cacheHit := by
  unfold resolve_verdict
  cases h : cacheLookup st.cache sha with
  | some status => simp
  | none =>
    cases u with
    | false => simp
    | true => cases hp : p.existing_run sha <;> simp [hp]

/-- A non-cached resolution means the sha was absent from the state cache. -/
theorem resolve_uncached_of_not_cached (u : Bool) (p : Provider) (st : CulpritFinderState)
    (sha : String) (h : (resolve_verdict u p st sha).is_cached = false) :
    cacheLookup st.cache sha = none := by
  cases hc : cacheLookup st.cache sha with
  | none => rfl
  | some status =>
    rw [resolve_verdict_of_cached u p st sha status hc] at h
    exact absurd h (by simp)

/-- A fresh test happens only when both the state cache and (when enabled)
the existing-run lookup fail. -/
theorem resolve_fresh_conditions (u : Bool) (p : Provider) (st : CulpritFinderState)
    (sha : String) (h : (resolve_verdict u p st sha).source = ResolveSource.freshTest) :
    cacheLookup st.cache sha = none ∧ (u = true → p.existing_run sha = none) := by
  unfold resolve_verdict at h
  cases hc : cacheLookup st.cache sha with
  | some status =>
    rw [hc] at h
    exact absurd h (by simp)
  | none =>
    rw [hc] at h
    refine ⟨rfl, ?_⟩
    intro hu
    subst hu
    rw [if_pos rfl] at h
    cases hp : p.existing_run sha with
    | none => rfl
    | some v =>
      rw [hp] at h
      exact absurd h (by simp)

/-- With `use_cache = false` the existing-run lookup is never consulted. -/
theorem resolve_no_existing_run_without_cache (p : Provider) (st : CulpritFinderState)
    (sha : String) :
    (resolve_verdict false p st sha).source ≠ ResolveSource.existingRun := by
  unfold resolve_verdict
  cases hc : cacheLookup st.cache sha with
  | some status => simp
  | none => simp

/-- Agreement between a state cache and the pure `verdict` function over an
initial cache: the state cache extends the initial one and every entry
stores the pure verdict of its key. -/
def CacheFaithful (u : Bool) (p : Provider)
    (ic c : List (String × CommitStatus)) : Prop :=
  (∀ sha status, cacheLookup ic sha = some status → cacheLookup c sha = some status) ∧
  (∀ sha status, cacheLookup c sha = some status →
    (status == CommitStatus.PASS) = verdict u p ic sha)

/-- The initial cache is faithful to itself. -/
theorem cacheFaithful_refl (u : Bool) (p : Provider)
    (ic : List (String × CommitStatus)) : CacheFaithful u p ic ic := by
  refine ⟨fun sha status h => h, fun sha status h => ?_⟩
  unfold verdict
  rw [h]

/-- Against a faithful cache, the in-loop resolution computes exactly the
pure `verdict`. -/
theorem resolve_agrees (u : Bool) (p : Provider)
    (ic : List (String × CommitStatus)) (st : CulpritFinderState) (sha : String)
    (hf : CacheFaithful u p ic st.cache) :
    (resolve_verdict u p st sha).is_good = verdict u p ic sha := by
  cases h : cacheLookup st.cache sha with
  | some status =>
    rw [resolve_verdict_of_cached u p st sha status h]
    exact hf.2 sha status h
  | none =>
    have hic : cacheLookup ic sha = none := by
      cases h2 : cacheLookup ic sha with
      | none => rfl
      | some s => exact absurd (hf.1 sha s h2) (by rw [h]; simp)
    unfold resolve_verdict verdict
    rw [h, hic]
    cases u with
    | false => simp
    | true => cases hp : p.existing_run sha <;> simp [hp]

/-- Effect of `_update_state` on the state fields. -/
theorem update_state_fields (st : CulpritFinderState) (sha : String) (g : Bool) :
    (update_state st sha g).1.cache =
      (sha, if g then CommitStatus.PASS else CommitStatus.FAIL) :: st.cache ∧
    (update_state st sha g).2 = [(update_state st sha g).1] ∧
    (g = true → (update_state st sha g).1.current_good = sha ∧
      (update_state st sha g).1.current_bad = st.current_bad) ∧
    (g = false → (update_state st sha g).1.current_bad = sha ∧
      (update_state st sha g).1.current_good = st.current_good) := by
  cases g <;> simp [update_state]

/-- Recording the freshly resolved verdict of an uncached sha preserves
cache faithfulness. -/
theorem cacheFaithful_update (u : Bool) (p : Provider)
    (ic : List (String × CommitStatus)) (st : CulpritFinderState) (sha : String)
    (g : Bool) (hf : CacheFaithful u p ic st.cache)
    (hnone : cacheLookup st.cache sha = none)
    (hg : g = verdict u p ic sha) :
    CacheFaithful u p ic (update_state st sha g).1.cache := by
  rw [(update_state_fields st sha g).1]
  constructor
  · intro sha2 status2 h2
    have hc := hf.1 sha2 status2 h2
    show (if sha == sha2 then some (if g then CommitStatus.PASS else CommitStatus.FAIL)
          else cacheLookup st.cache sha2) = some status2
    by_cases he : sha = sha2
    · subst he
      rw [hnone] at hc
      exact absurd hc (by simp)
    · rw [if_neg (by simpa using he)]
      exact hc
  · intro sha2 status2 h2
    replace h2 : (if sha == sha2 then
        some (if g then CommitStatus.PASS else CommitStatus.FAIL)
      else cacheLookup st.cache sha2) = some status2 := h2
    by_cases he : sha = sha2
    · subst he
      rw [if_pos (by simp)] at h2
      have hst : status2 = if g then CommitStatus.PASS else CommitStatus.FAIL :=
        (Option.some.injEq _ _ ▸ h2).symm
      subst hst
      rw [← hg]
      cases g <;> simp
    · rw [if_neg (by simpa using he)] at h2
      exact hf.2 sha2 status2 h2

/-- Bounds for the floor-division midpoint `(good_idx + bad_idx) // 2`:
it lies strictly between the endpoints, and both half-intervals are at
most the rounded-up half of the original interval. -/
theorem mid_idx_facts (good bad : Int) (h : bad - good > 1) :
    good < Int.fdiv (good + bad) 2 ∧ Int.fdiv (good + bad) 2 < bad ∧
    (bad - Int.fdiv (good + bad) 2).toNat ≤ ((bad - good).toNat + 1) / 2 ∧
    (Int.fdiv (good + bad) 2 - good).toNat ≤ ((bad - good).toNat + 1) / 2 := by
  rw [Int.fdiv_eq_ediv _ (by norm_num)]
  refine ⟨by omega, by omega, by omega, by omega⟩

/-- Termination of the `while` loop: with fuel at least the initial
interval, the loop exits with `bad_idx - good_idx <= 1`, i.e. the fuel
never runs out before the loop condition turns false. -/
theorem bisect_loop_interval_le_one (u : Bool) (p : Provider) (commits : List Commit) :
    ∀ (fuel : Nat) (st : CulpritFinderState) (good bad : Int),
      (bad - good).toNat ≤ fuel + 1 →
      (bisect_loop u p commits fuel st good bad).2.2.1 -
        (bisect_loop u p commits fuel st good bad).2.1 ≤ 1 := by
  intro fuel
  induction fuel with
  | zero =>
    intro st good bad h
    show bad - good ≤ 1
    omega
  | succ fuel ih =>
    intro st good bad h
    simp only [bisect_loop]
    split
    · rename_i hgt
      obtain ⟨hm1, hm2, hm3, hm4⟩ := mid_idx_facts good bad hgt
      cases hg : (resolve_verdict u p st
          ((commits.getD (Int.fdiv (good + bad) 2).toNat dummyCommit).sha)).is_good with
      | true =>
        rw [if_pos rfl, if_pos rfl]
        refine ih _ _ _ ?_
        omega
      | false =>
        rw [if_neg Bool.false_ne_true, if_neg Bool.false_ne_true]
        refine ih _ _ _ ?_
        omega
    · show bad - good ≤ 1
      omega

/-- The number of midpoint verdicts resolved by the loop (cache hits,
existing-run lookups and fresh tests alike) is at most
`ceil(log2(bad_idx - good_idx))`. -/
theorem bisect_loop_log_length_le (u : Bool) (p : Provider) (commits : List Commit) :
    ∀ (fuel : Nat) (st : CulpritFinderState) (good bad : Int),
      (bisect_loop u p commits fuel st good bad).2.2.2.length ≤
        Nat.clog 2 (bad - good).toNat := by
  intro fuel
  induction fuel with
  | zero =>
    intro st good bad
    exact Nat.zero_le _
  | succ fuel ih =>
    intro st good bad
    simp only [bisect_loop]
    split
    · rename_i hgt
      obtain ⟨hm1, hm2, hm3, hm4⟩ := mid_idx_facts good bad hgt
      have hd : 2 ≤ (bad - good).toNat := by omega
      rw [Nat.clog_of_two_le (by norm_num) hd]
      have he : ((bad - good).toNat + 2 - 1) / 2 = ((bad - good).toNat + 1) / 2 := by omega
      rw [he]
      simp only [List.length_cons]
      cases hg : (resolve_verdict u p st
          ((commits.getD (Int.fdiv (good + bad) 2).toNat dummyCommit).sha)).is_good with
      | true =>
        rw [if_pos rfl, if_pos rfl]
        show _ + 1 ≤ _ + 1
        apply Nat.succ_le_succ
        refine le_trans (ih _ _ _) ?_
        exact Nat.clog_mono_right 2 hm3
      | false =>
        rw [if_neg Bool.false_ne_true, if_neg Bool.false_ne_true]
        show _ + 1 ≤ _ + 1
        apply Nat.succ_le_succ
        refine le_trans (ih _ _ _) ?_
        exact Nat.clog_mono_right 2 hm4
    · exact Nat.zero_le _

/-- The per-iteration state/saves pair reduces to `(st, [])` on a cache
hit. -/
theorem step_entry_cached (u : Bool) (p : Provider) (st : CulpritFinderState)
    (sha : String) (hc : (resolve_verdict u p st sha).is_cached = true) :
    (if (resolve_verdict u p st sha).is_cached then
      (st, ([] : List CulpritFinderState))
    else update_state st sha (resolve_verdict u p st sha).is_good) = (st, []) :=
  if_pos hc

/-- The per-iteration state/saves pair reduces to `_update_state` on a
non-cached verdict. -/
theorem step_entry_uncached (u : Bool) (p : Provider) (st : CulpritFinderState)
    (sha : String) (hc : (resolve_verdict u p st sha).is_cached = false) :
    (if (resolve_verdict u p st sha).is_cached then
      (st, ([] : List CulpritFinderState))
    else update_state st sha (resolve_verdict u p st sha).is_good) =
      update_state st sha (resolve_verdict u p st sha).is_good :=
  if_neg (by simp [hc])

/-- Every logged iteration is faithful to the loop body: its recorded
resolution is exactly `resolve_verdict` on its pre-state, a cache hit
leaves the state untouched and saves nothing, and a non-cached verdict
updates the state via `_update_state` (which saves exactly once). -/
theorem bisect_loop_trace_shape (u : Bool) (p : Provider) (commits : List Commit) :
    ∀ (fuel : Nat) (st : CulpritFinderState) (good bad : Int) (e : StepLog),
      e ∈ (bisect_loop u p commits fuel st good bad).2.2.2 →
      resolve_verdict u p e.pre e.sha = ⟨e.is_good, e.is_cached, e.source⟩ ∧
      (e.is_cached = true → e.post = e.pre ∧ e.saves = []) ∧
      (e.is_cached = false → (e.post, e.saves) = update_state e.pre e.sha e.is_good) := by
  intro fuel
  induction fuel with
  | zero =>
    intro st good bad e he
    exact absurd he (List.not_mem_nil e)
  | succ fuel ih =>
    intro st good bad e he
    simp only [bisect_loop] at he
    split at he
    · rcases List.mem_cons.mp he with he1 | he2
      · subst he1
        refine ⟨rfl, ?_, ?_⟩
        · intro hc
          have h5 := step_entry_cached u p st
            ((commits.getD (Int.fdiv (good + bad) 2).toNat dummyCommit).sha) hc
          exact ⟨congrArg Prod.fst h5, congrArg Prod.snd h5⟩
        · intro hc
          have h5 := step_entry_uncached u p st
            ((commits.getD (Int.fdiv (good + bad) 2).toNat dummyCommit).sha) hc
          exact h5
      · exact ih _ _ _ e he2
    · exact absurd he (List.not_mem_nil e)

/-- The binary-search core of claim C1: if the pure verdict of every
commit in range is GOOD strictly below index `k` and BAD from `k` on,
then starting from any faithful state and any enclosing index interval,
the loop's final `bad_idx` is exactly `k`. -/
theorem bisect_loop_locates (u : Bool) (p : Provider) (commits : List Commit)
    (ic : List (String × CommitStatus)) (k : Nat)
    (hmono : ∀ i : Nat, i < commits.length →
      (verdict u p ic (commits.getD i dummyCommit).sha = true ↔ i < k))
    (_hk : k ≤ commits.length) :
    ∀ (fuel : Nat) (st : CulpritFinderState) (good bad : Int),
      CacheFaithful u p ic st.cache →
      (bad - good).toNat ≤ fuel + 1 →
      -1 ≤ good → good < (k : Int) → (k : Int) ≤ bad → bad ≤ (commits.length : Int) →
      (bisect_loop u p commits fuel st good bad).2.2.1 = (k : Int) := by
  intro fuel
  induction fuel with
  | zero =>
    intro st good bad hf hfu h1 h2 h3 h4
    show bad = (k : Int)
    omega
  | succ fuel ih =>
    intro st good bad hf hfu h1 h2 h3 h4
    simp only [bisect_loop]
    split
    · rename_i hgt
      obtain ⟨hm1, hm2, hm3, hm4⟩ := mid_idx_facts good bad hgt
      have hmlt : (Int.fdiv (good + bad) 2).toNat < commits.length := by omega
      have hsha := resolve_agrees u p ic st
        ((commits.getD (Int.fdiv (good + bad) 2).toNat dummyCommit).sha) hf
      have hverd := hmono (Int.fdiv (good + bad) 2).toNat hmlt
      cases hg : (resolve_verdict u p st
          ((commits.getD (Int.fdiv (good + bad) 2).toNat dummyCommit).sha)).is_good with
      | true =>
        rw [if_pos rfl, if_pos rfl]
        have hv : verdict u p ic
            ((commits.getD (Int.fdiv (good + bad) 2).toNat dummyCommit).sha) = true := by
          rw [← hsha]
          exact hg
        have hklt : (Int.fdiv (good + bad) 2).toNat < k := hverd.mp hv
        refine ih _ _ _ ?_ ?_ ?_ ?_ ?_ ?_
        · cases hic : (resolve_verdict u p st
              ((commits.getD (Int.fdiv (good + bad) 2).toNat dummyCommit).sha)).is_cached with
          | true =>
            rw [if_pos rfl]
            exact hf
          | false =>
            rw [if_neg Bool.false_ne_true]
            exact cacheFaithful_update u p ic st _ true hf
              (resolve_uncached_of_not_cached u p st _ hic) hv.symm
        · omega
        · omega
        · omega
        · omega
        · omega
      | false =>
        rw [if_neg Bool.false_ne_true, if_neg Bool.false_ne_true]
        have hv : verdict u p ic
            ((commits.getD (Int.fdiv (good + bad) 2).toNat dummyCommit).sha) = false := by
          rw [← hsha]
          exact hg
        have hkge : ¬((Int.fdiv (good + bad) 2).toNat < k) := by
          intro hlt
          rw [hverd.mpr hlt] at hv
          cases hv
        refine ih _ _ _ ?_ ?_ ?_ ?_ ?_ ?_
        · cases hic : (resolve_verdict u p st
              ((commits.getD (Int.fdiv (good + bad) 2).toNat dummyCommit).sha)).is_cached with
          | true =>
            rw [if_pos rfl]
            exact hf
          | false =>
            rw [if_neg Bool.false_ne_true]
            exact cacheFaithful_update u p ic st _ false hf
              (resolve_uncached_of_not_cached u p st _ hic) hv.symm
        · omega
        · omega
        · omega
        · omega
        · omega
    · rename_i hle
      show bad = (k : Int)
      omega

/-- Trace-shape facts lifted to `run_bisection`. -/
theorem run_bisection_trace_shape (u : Bool) (p : Provider) (commits : List Commit)
    (st0 : CulpritFinderState) (e : StepLog)
    (he : e ∈ (run_bisection u p commits st0).2) :
    resolve_verdict u p e.pre e.sha = ⟨e.is_good, e.is_cached, e.source⟩ ∧
    (e.is_cached = true → e.post = e.pre ∧ e.saves = []) ∧
    (e.is_cached = false → (e.post, e.saves) = update_state e.pre e.sha e.is_good) := by
  unfold run_bisection at he
  split at he
  · exact absurd he (List.not_mem_nil e)
  · exact bisect_loop_trace_shape u p commits commits.length st0 (-1) _ e he

/-- A logged step whose sha was in its pre-state cache is a cache hit and
takes its verdict from the cached status. -/
theorem trace_cached_source (u : Bool) (p : Provider) (commits : List Commit)
    (st0 : CulpritFinderState) (e : StepLog)
    (he : e ∈ (run_bisection u p commits st0).2) (status : CommitStatus)
    (hlk : cacheLookup e.pre.cache e.sha = some status) :
    e.source = ResolveSource.cacheHit ∧ e.is_good = (status == CommitStatus.PASS) := by
  obtain ⟨hres, _, _⟩ := run_bisection_trace_shape u p commits st0 e he
  have h1 := (resolve_verdict_of_cached u p e.pre e.sha status hlk).symm.trans hres
  exact ⟨(congrArg Resolution.source h1).symm, (congrArg Resolution.is_good h1).symm⟩

/-- Claim C1: over a commit range whose pure verdicts are monotone with
first-BAD index `k`, `run_bisection` returns `commits[k]` when `k` is in
range and `None` when every commit is GOOD (`k = N`); an empty range
returns `None` with an empty iteration log (no commit is ever examined,
hence no branch is created and nothing is tested). -/
theorem bisection_returns_first_bad (u : Bool) (p : Provider) (commits : List Commit)
    (st0 : CulpritFinderState) (k : Nat) (hk : k ≤ commits.length)
    (hmono : ∀ i, i < commits.length →
      (verdict u p st0.cache (commits.getD i dummyCommit).sha = true ↔ i < k)) :
    ((run_bisection u p commits st0).1 =
      if k < commits.length then some (commits.getD k dummyCommit) else none) ∧
    (commits = [] → run_bisection u p commits st0 = (none, [])) := by
  constructor
  · unfold run_bisection
    by_cases hemp : commits.isEmpty
    · rw [if_pos hemp]
      have hnil : commits = [] := List.isEmpty_iff.mp hemp
      subst hnil
      have hk0 : k = 0 := Nat.le_zero.mp (by simpa using hk)
      subst hk0
      rfl
    · rw [if_neg hemp]
      have hbad := bisect_loop_locates u p commits st0.cache k hmono hk
        commits.length st0 (-1) (commits.length : Int)
        (cacheFaithful_refl u p st0.cache) (by omega) (by omega) (by omega)
        (by omega) le_rfl
      show (if (bisect_loop u p commits commits.length st0 (-1)
            (commits.length : Int)).2.2.1 = (commits.length : Int) then none
          else some (commits.getD (bisect_loop u p commits commits.length st0 (-1)
            (commits.length : Int)).2.2.1.toNat dummyCommit)) =
        if k < commits.length then some (commits.getD k dummyCommit) else none
      rw [hbad]
      by_cases hkn : k < commits.length
      · rw [if_neg (by omega), if_pos hkn]
        simp
      · rw [if_pos (by omega), if_neg hkn]
  · intro hempty
    subst hempty
    rfl

/-- Witness for `bisection_returns_first_bad`: three commits with `c0` GOOD
and `c1`, `c2` BAD give culprit `c1` (index `k = 1`). -/
theorem bisection_returns_first_bad_witness :
    (run_bisection true (Provider.mk (fun _ => none) (fun s => s == "c0"))
        [⟨"c0"⟩, ⟨"c1"⟩, ⟨"c2"⟩] ⟨"r", "w", none, "s", "e", "", "", []⟩).1 =
      (if 1 < ([⟨"c0"⟩, ⟨"c1"⟩, ⟨"c2"⟩] : List Commit).length then
        some (([⟨"c0"⟩, ⟨"c1"⟩, ⟨"c2"⟩] : List Commit).getD 1 dummyCommit)
      else none) :=
  (bisection_returns_first_bad true (Provider.mk (fun _ => none) (fun s => s == "c0"))
    [⟨"c0"⟩, ⟨"c1"⟩, ⟨"c2"⟩] ⟨"r", "w", none, "s", "e", "", "", []⟩ 1
    (by decide) (by decide)).1

/-- Claim C2: the bisection loop terminates (its exit interval satisfies
`bad_idx - good_idx <= 1` with the fuel `run_bisection` supplies, i.e. the
`while` condition has turned false), and the number of midpoint verdicts
it resolves — cache hits, existing-run lookups and fresh tests alike — is
at most `ceil(log2(N + 1))` for a range of `N` commits. -/
theorem bisection_verdict_bound (u : Bool) (p : Provider) (commits : List Commit)
    (st0 : CulpritFinderState) :
    (run_bisection u p commits st0).2.length ≤ Nat.clog 2 (commits.length + 1) ∧
    (bisect_loop u p commits commits.length st0 (-1) (commits.length : Int)).2.2.1 -
      (bisect_loop u p commits commits.length st0 (-1) (commits.length : Int)).2.1 ≤ 1 := by
  constructor
  · unfold run_bisection
    by_cases hemp : commits.isEmpty
    · rw [if_pos hemp]
      exact Nat.zero_le _
    · rw [if_neg hemp]
      have hlog := bisect_loop_log_length_le u p commits commits.length st0 (-1)
        (commits.length : Int)
      have he : ((commits.length : Int) - (-1)).toNat = commits.length + 1 := by omega
      rw [he] at hlog
      exact hlog
  · exact bisect_loop_interval_le_one u p commits commits.length st0 (-1)
      (commits.length : Int) (by omega)

/-- Claim C3: a commit sha present in the state cache when its midpoint is
examined resolves as a cache hit (it is never handed to the Commit
Tester), and the fresh-test path runs only when both the cache lookup and
— when caching is enabled — the existing-run lookup produced nothing. -/
theorem cached_sha_never_fresh_tested (u : Bool) (p : Provider) (commits : List Commit)
    (st0 : CulpritFinderState) (e : StepLog)
    (he : e ∈ (run_bisection u p commits st0).2) :
    (cacheLookup e.pre.cache e.sha ≠ none → e.source = ResolveSource.cacheHit) ∧
    (e.source = ResolveSource.freshTest →
      cacheLookup e.pre.cache e.sha = none ∧ (u = true → p.existing_run e.sha = none)) := by
  obtain ⟨hres, _, _⟩ := run_bisection_trace_shape u p commits st0 e he
  constructor
  · intro hc
    cases hlk : cacheLookup e.pre.cache e.sha with
    | none => exact absurd hlk hc
    | some status => exact (trace_cached_source u p commits st0 e he status hlk).1
  · intro hsrc
    have hsrc2 : (resolve_verdict u p e.pre e.sha).source = ResolveSource.freshTest :=
      (congrArg Resolution.source hres).trans hsrc
    exact resolve_fresh_conditions u p e.pre e.sha hsrc2

/-- Witness for `cached_sha_never_fresh_tested`: with `c1` pre-cached as
PASS, the first logged midpoint (which examines `c1`) is a cache hit. -/
theorem cached_sha_never_fresh_tested_witness :
    ((run_bisection true (Provider.mk (fun _ => none) (fun s => s == "c0"))
        [⟨"c0"⟩, ⟨"c1"⟩, ⟨"c2"⟩]
        ⟨"r", "w", none, "s", "e", "", "", [("c1", CommitStatus.PASS)]⟩).2.getD 0
      ⟨⟨"r", "w", none, "s", "e", "", "", []⟩, "", false, false,
        ResolveSource.cacheHit, ⟨"r", "w", none, "s", "e", "", "", []⟩, []⟩).source =
      ResolveSource.cacheHit :=
  (cached_sha_never_fresh_tested true (Provider.mk (fun _ => none) (fun s => s == "c0"))
    [⟨"c0"⟩, ⟨"c1"⟩, ⟨"c2"⟩]
    ⟨"r", "w", none, "s", "e", "", "", [("c1", CommitStatus.PASS)]⟩
    ((run_bisection true (Provider.mk (fun _ => none) (fun s => s == "c0"))
        [⟨"c0"⟩, ⟨"c1"⟩, ⟨"c2"⟩]
        ⟨"r", "w", none, "s", "e", "", "", [("c1", CommitStatus.PASS)]⟩).2.getD 0
      ⟨⟨"r", "w", none, "s", "e", "", "", []⟩, "", false, false,
        ResolveSource.cacheHit, ⟨"r", "w", none, "s", "e", "", "", []⟩, []⟩)
    (by decide)).1 (by decide)

/-- Claim C4: a midpoint whose verdict was not satisfied by the state
cache (existing-run lookup or fresh test) saves the state exactly once,
and the saved state is the post-state in which the verdict has been
recorded in the cache and `current_good` / `current_bad` updated; a pure
cache hit modifies nothing and never saves. -/
theorem state_saved_iff_not_cache_hit (u : Bool) (p : Provider) (commits : List Commit)
    (st0 : CulpritFinderState) (e : StepLog)
    (he : e ∈ (run_bisection u p commits st0).2) :
    (e.source ≠ ResolveSource.cacheHit →
      e.saves = [e.post] ∧
      e.post.cache =
        (e.sha, if e.is_good then CommitStatus.PASS else CommitStatus.FAIL) :: e.pre.cache ∧
      (e.is_good = true →
        e.post.current_good = e.sha ∧ e.post.current_bad = e.pre.current_bad) ∧
      (e.is_good = false →
        e.post.current_bad = e.sha ∧ e.post.current_good = e.pre.current_good)) ∧
    (e.source = ResolveSource.cacheHit → e.post = e.pre ∧ e.saves = []) := by
  obtain ⟨hres, hcached, huncached⟩ := run_bisection_trace_shape u p commits st0 e he
  have hiceq : (resolve_verdict u p e.pre e.sha).is_cached = e.is_cached :=
    congrArg Resolution.is_cached hres
  have hsrc : (resolve_verdict u p e.pre e.sha).source = e.source :=
    congrArg Resolution.source hres
  have hiff := resolve_is_cached_iff_source u p e.pre e.sha
  constructor
  · intro hne
    have hic : e.is_cached = false := by
      cases hcv : e.is_cached with
      | false => rfl
      | true =>
        have h1 : (resolve_verdict u p e.pre e.sha).is_cached = true := by
          rw [hiceq, hcv]
        have h2 := hiff.mp h1
        rw [hsrc] at h2
        exact absurd h2 hne
    have hupd := huncached hic
    have hpost : e.post = (update_state e.pre e.sha e.is_good).1 := congrArg Prod.fst hupd
    have hsaves : e.saves = (update_state e.pre e.sha e.is_good).2 := congrArg Prod.snd hupd
    obtain ⟨hc1, hc2, hc3, hc4⟩ := update_state_fields e.pre e.sha e.is_good
    refine ⟨?_, ?_, ?_, ?_⟩
    · rw [hsaves, hc2, ← hpost]
    · rw [hpost, hc1]
    · intro hg
      rw [hpost]
      exact hc3 hg
    · intro hg
      rw [hpost]
      exact hc4 hg
  · intro heq
    have hic : e.is_cached = true := by
      rw [← hiceq]
      exact hiff.mpr (by rw [hsrc]; exact heq)
    exact hcached hic

/-- Witness for `state_saved_iff_not_cache_hit`: the second logged step of
the cached example is a fresh test, and its save list is exactly the
updated post-state. -/
theorem state_saved_iff_not_cache_hit_witness :
    ((run_bisection true (Provider.mk (fun _ => none) (fun s => s == "c0"))
        [⟨"c0"⟩, ⟨"c1"⟩, ⟨"c2"⟩]
        ⟨"r", "w", none, "s", "e", "", "", [("c1", CommitStatus.PASS)]⟩).2.getD 1
      ⟨⟨"r", "w", none, "s", "e", "", "", []⟩, "", false, false,
        ResolveSource.cacheHit, ⟨"r", "w", none, "s", "e", "", "", []⟩, []⟩).saves =
      [((run_bisection true (Provider.mk (fun _ => none) (fun s => s == "c0"))
          [⟨"c0"⟩, ⟨"c1"⟩, ⟨"c2"⟩]
          ⟨"r", "w", none, "s", "e", "", "", [("c1", CommitStatus.PASS)]⟩).2.getD 1
        ⟨⟨"r", "w", none, "s", "e", "", "", []⟩, "", false, false,
          ResolveSource.cacheHit, ⟨"r", "w", none, "s", "e", "", "", []⟩, []⟩).post] :=
  ((state_saved_iff_not_cache_hit true (Provider.mk (fun _ => none) (fun s => s == "c0"))
    [⟨"c0"⟩, ⟨"c1"⟩, ⟨"c2"⟩]
    ⟨"r", "w", none, "s", "e", "", "", [("c1", CommitStatus.PASS)]⟩
    ((run_bisection true (Provider.mk (fun _ => none) (fun s => s == "c0"))
        [⟨"c0"⟩, ⟨"c1"⟩, ⟨"c2"⟩]
        ⟨"r", "w", none, "s", "e", "", "", [("c1", CommitStatus.PASS)]⟩).2.getD 1
      ⟨⟨"r", "w", none, "s", "e", "", "", []⟩, "", false, false,
        ResolveSource.cacheHit, ⟨"r", "w", none, "s", "e", "", "", []⟩, []⟩)
    (by decide)).1 (by decide)).1

/-- Claim C10: the `use_cache` flag gates only the existing-run lookup.
Even with `use_cache = false`, a sha present in the state cache is
resolved from the cache (with the cached verdict) and never re-tested;
and the existing-run path is never taken at all. -/
theorem cache_respected_without_use_cache (p : Provider) (commits : List Commit)
    (st0 : CulpritFinderState) (e : StepLog)
    (he : e ∈ (run_bisection false p commits st0).2) :
    (cacheLookup e.pre.cache e.sha ≠ none → e.source = ResolveSource.cacheHit) ∧
    e.source ≠ ResolveSource.existingRun ∧
    (∀ status, cacheLookup e.pre.cache e.sha = some status →
      e.is_good = (status == CommitStatus.PASS)) := by
  obtain ⟨hres, _, _⟩ := run_bisection_trace_shape false p commits st0 e he
  have hsrc : (resolve_verdict false p e.pre e.sha).source = e.source :=
    congrArg Resolution.source hres
  refine ⟨?_, ?_, ?_⟩
  · intro hc
    cases hlk : cacheLookup e.pre.cache e.sha with
    | none => exact absurd hlk hc
    | some status => exact (trace_cached_source false p commits st0 e he status hlk).1
  · intro hcontra
    exact resolve_no_existing_run_without_cache p e.pre e.sha (hsrc.trans hcontra)
  · intro status hlk
    exact (trace_cached_source false p commits st0 e he status hlk).2

/-- Witness for `cache_respected_without_use_cache`: running with
`use_cache = false` on the cached example still resolves `c1` from the
state cache. -/
theorem cache_respected_without_use_cache_witness :
    ((run_bisection false (Provider.mk (fun _ => none) (fun s => s == "c0"))
        [⟨"c0"⟩, ⟨"c1"⟩, ⟨"c2"⟩]
        ⟨"r", "w", none, "s", "e", "", "", [("c1", CommitStatus.PASS)]⟩).2.getD 0
      ⟨⟨"r", "w", none, "s", "e", "", "", []⟩, "", false, false,
        ResolveSource.cacheHit, ⟨"r", "w", none, "s", "e", "", "", []⟩, []⟩).source =
      ResolveSource.cacheHit :=
  (cache_respected_without_use_cache (Provider.mk (fun _ => none) (fun s => s == "c0"))
    [⟨"c0"⟩, ⟨"c1"⟩, ⟨"c2"⟩]
    ⟨"r", "w", none, "s", "e", "", "", [("c1", CommitStatus.PASS)]⟩
    ((run_bisection false (Provider.mk (fun _ => none) (fun s => s == "c0"))
        [⟨"c0"⟩, ⟨"c1"⟩, ⟨"c2"⟩]
        ⟨"r", "w", none, "s", "e", "", "", [("c1", CommitStatus.PASS)]⟩).2.getD 0
      ⟨⟨"r", "w", none, "s", "e", "", "", []⟩, "", false, false,
        ResolveSource.cacheHit, ⟨"r", "w", none, "s", "e", "", "", []⟩, []⟩)
    (by decide)).1 (by decide)
